import Mathlib

/-!
Verification of the Vehicle-Image-Generator repository.

The repository consists of two JavaScript files, each defining the class
VehicleImageGenerator around a remote tabular store of vehicle records and a
remote generative-image provider.  This file gives a shallow embedding of the
code:

* a concrete record-store model of the file that takes a forceUpdate flag
  (src/unnamed/part_000): fetchOne, updateRow, getVehiclesWithoutImages,
  getAllVehicles, updateVehicleImage, processRecord, processVehicles, main;
* an event-trace model of the run function of src/VehicleImageGenerator.js
  (testEnvironmentVariables, testConnection, testOpenAIConnection,
  processAllVehicles), where the outcomes of the remote calls are supplied by
  an oracle (RunEnv) and the observable actions of the run are collected as a
  list of events;
* the provider adapter generateVehicleImage together with the exact request
  it builds (mkImageRequest), instrumented to return the list of requests it
  issued.

Remote calls are modelled by explicit outcomes: a JavaScript `throw` caught by
a try/catch becomes an `Except.error` value, and the JavaScript truthiness
test on a nullable string becomes jsTruthyStr.
-/

namespace VehicleImageGenerator

/-- Errors that a remote call (provider or store) can produce, plus the
TypeError raised by reading the url field of an undefined array element. -/
inductive Err where
  | rateLimit
  | invalidPrompt
  | authError
  | network (msg : String)
  | typeError
deriving DecidableEq, Repr

/-- One row of the vehicle table: id, vehicletype, the nullable vehiclegraphic
column and the updated_at timestamp. -/
structure Vehicle where
  id : Nat
  vehicletype : String
  vehiclegraphic : Option String
  updated_at : String
deriving DecidableEq, Repr

/-- The record store is the list of rows of the vehicle table. -/
abbrev Store := List Vehicle

/-- JavaScript truthiness of a nullable string: null/undefined and the empty
string are falsy, every other string is truthy. -/
def jsTruthyStr : Option String → Bool
  | none => false
  | some s => !s.isEmpty

/-- generateImagePrompt (src/unnamed/part_000 lines 23-29): the template
literal instantiated at the vehicletype. -/
def generateImagePrompt (vehicletype : String) : String :=
  "A photo-realistic, ultra-detailed image of a " ++ vehicletype ++
    " in pristine condition, \n        captured at a 3/4 front angle on a sleek, modern showroom floor with professional lighting. \n        The flawless paint reflects perfectly, showcasing chrome accents and tire details. The \n        background features a soft gray-to-white gradient for depth. High-resolution, showroom-quality, \n        with no people and no text."

/-- The body of the request that generateVehicleImage sends to
openai.images.generate (src/unnamed/part_000 lines 59-66). -/
structure ImageRequest where
  model : String
  prompt : String
  size : String
  quality : String
  style : String
  n : Nat
deriving DecidableEq, Repr

/-- One element of the data array of the provider response. -/
structure ImageData where
  url : String
deriving DecidableEq, Repr

/-- The provider response: a data array of generated images. -/
structure ProviderResponse where
  data : List ImageData
deriving DecidableEq, Repr

/-- The request generateVehicleImage builds for a vehicletype: model dall-e-3,
the prompt from generateImagePrompt, size 1024x1024, quality hd, style vivid,
n = 1. -/
def mkImageRequest (vehicletype : String) : ImageRequest :=
  { model := "dall-e-3"
    prompt := generateImagePrompt vehicletype
    size := "1024x1024"
    quality := "hd"
    style := "vivid"
    n := 1 }

/-- generateVehicleImage (src/unnamed/part_000 lines 55-74).  The provider is
an oracle from requests to responses.  The function returns the list of
requests it issued together with its result.  `response.data[0].url` on an
empty data array raises a TypeError in JavaScript, which the catch block
rethrows; this is the `Err.typeError` case.  A provider error is rethrown by
the catch block unchanged. -/
def generateVehicleImage (provider : ImageRequest → Except Err ProviderResponse)
    (vehicletype : String) : List ImageRequest × Except Err String :=
  let req := mkImageRequest vehicletype
  match provider req with
  | Except.error e => ([req], Except.error e)
  | Except.ok resp =>
    match resp.data with
    | [] => ([req], Except.error Err.typeError)
    | d :: _ => ([req], Except.ok d.url)

/-- The read issued by updateVehicleImage:
select by id with single() — the first row
whose id matches, if any. -/
def fetchOne (store : Store) (vehicleId : Nat) : Option Vehicle :=
  store.find? (fun v => v.id == vehicleId)

/-- The write issued by updateVehicleImage:
update of vehiclegraphic and updated_at filtered by id — set the
vehiclegraphic and updated_at columns of every row whose id matches. -/
def updateRow (vehicleId : Nat) (imageUrl now : String) (store : Store) : Store :=
  store.map (fun v =>
    if v.id == vehicleId then
      { v with vehiclegraphic := some imageUrl, updated_at := now }
    else v)

/-- getVehiclesWithoutImages (src/unnamed/part_000 lines 173-186):
the is-null filter on vehiclegraphic — the rows whose vehiclegraphic is null. -/
def getVehiclesWithoutImages (store : Store) : List Vehicle :=
  store.filter (fun v => v.vehiclegraphic.isNone)

/-- Insertion into a list sorted by id, used to model the ordered select. -/
def insertById (v : Vehicle) : Store → Store
  | [] => [v]
  | w :: ws => if v.id ≤ w.id then v :: w :: ws else w :: insertById v ws

/-- getAllVehicles (src/unnamed/part_000 lines 158-171):
the select ordered by id ascending — all rows ordered by id ascending. -/
def getAllVehicles (store : Store) : Store :=
  store.foldr insertById []

/-- The error updateVehicleImage throws when the single() read finds no row:
`Vehicle ID ... not found`. -/
inductive UpdateError where
  | notFound (vehicleId : Nat)
deriving DecidableEq, Repr

/-- updateVehicleImage (src/unnamed/part_000 lines 77-111).  Reads the current
row; throws notFound when the id is unknown; when the current vehiclegraphic
is truthy and forceUpdate is false, returns false without writing; otherwise
writes the new url and a fresh timestamp and returns true.  The resulting
store is returned alongside the outcome; on an error the store is the input
store, unchanged. -/
def updateVehicleImage (now : String) (store : Store) (vehicleId : Nat)
    (imageUrl : String) (forceUpdate : Bool) : Except UpdateError Bool × Store :=
  match fetchOne store vehicleId with
  | none => (Except.error (UpdateError.notFound vehicleId), store)
  | some current =>
    if jsTruthyStr current.vehiclegraphic && !forceUpdate then
      (Except.ok false, store)
    else
      (Except.ok true, updateRow vehicleId imageUrl now store)

/-- One iteration of the processVehicles loop body (src/unnamed/part_000 lines
127-143) acting on the store: generate an image for the vehicle, then update
its row; any thrown error is caught by the loop and leaves the store as it
was. -/
def processRecord (provider : String → Except Err String) (now : String)
    (forceUpdate : Bool) (store : Store) (v : Vehicle) : Store :=
  match provider v.vehicletype with
  | Except.error _ => store
  | Except.ok url =>
    match updateVehicleImage now store v.id url forceUpdate with
    | (Except.error _, s) => s
    | (Except.ok _, s) => s

/-- processVehicles (src/unnamed/part_000 lines 114-147) acting on the store.
connOk is the outcome of testConnections; when it is false the method returns
at once.  The candidate list is fetched once (missing-image rows when
onlyMissing, else all rows ordered by id), and the loop passes
forceUpdate = !onlyMissing to updateVehicleImage. -/
def processVehicles (provider : String → Except Err String) (now : String)
    (connOk : Bool) (onlyMissing : Bool) (store : Store) : Store :=
  if !connOk then store
  else
    let vehicles := if onlyMissing then getVehiclesWithoutImages store else getAllVehicles store
    if vehicles.length = 0 then store
    else vehicles.foldl (fun s v => processRecord provider now (!onlyMissing) s v) store

/-- main (src/unnamed/part_000 lines 211-234) acting on the store: fetch the
rows without images; when there is at least one, run
processOnlyMissingImages (processVehicles true), otherwise run
regenerateAllImages (processVehicles false). -/
def main (provider : String → Except Err String) (now : String) (connOk : Bool)
    (store : Store) : Store :=
  if (getVehiclesWithoutImages store).length > 0 then
    processVehicles provider now connOk true store
  else
    processVehicles provider now connOk false store

/-- Overwrite the vehiclegraphic of every row whose id is listed with the url
generated for its vehicletype, stamping the new timestamp.  Helper used to
state what a full-regeneration run does. -/
def applyAll (g : String → String) (now : String) (ids : List Nat) (store : Store) : Store :=
  store.map (fun w =>
    if w.id ∈ ids then
      { w with vehiclegraphic := some (g w.vehicletype), updated_at := now }
    else w)

/-! ## Event-trace model of src/VehicleImageGenerator.js -/

/-- Observable actions of a processAllVehicles run: the diagnostics printed by
the preflight checks, the remote calls of the per-record loop, the pacing
delay, and the report printed when the candidate set is empty. -/
inductive Event where
  | envMissing (key : String)
  | dbFail
  | openaiFail
  | providerCall (i : Nat)
  | storeUpdateCall (i : Nat)
  | delay
  | emptyReport
deriving DecidableEq, Repr

/-- The three required environment variables
(src/VehicleImageGenerator.js line 34). -/
def requiredVars : List String :=
  ["SUPABASE_URL", "SUPABASE_ANON_KEY", "OPENAI_API_KEY"]

/-- testEnvironmentVariables (src/VehicleImageGenerator.js lines 32-51): walk
the required names in order, log a Missing diagnostic for every falsy one and
clear the allFound flag; the loop never stops early. -/
def testEnvironmentVariables (env : String → Option String) : List Event × Bool :=
  requiredVars.foldl
    (fun acc varName =>
      if jsTruthyStr (env varName) then acc
      else (acc.1 ++ [Event.envMissing varName], false))
    ([], true)

/-- testConnection (src/VehicleImageGenerator.js lines 54-70): emits its own
failure diagnostic and returns false when the store probe fails. -/
def testConnection (dbOk : Bool) : List Event × Bool :=
  if dbOk then ([], true) else ([Event.dbFail], false)

/-- testOpenAIConnection (src/VehicleImageGenerator.js lines 73-83): emits its
own failure diagnostic and returns false when the provider probe fails. -/
def testOpenAIConnection (openaiOk : Bool) : List Event × Bool :=
  if openaiOk then ([], true) else ([Event.openaiFail], false)

/-- Oracle for one processAllVehicles run: the environment, the outcomes of
the two connectivity probes, the candidate rows returned by
getVehiclesWithoutImages, and the outcome of the provider call and of the
store update for each loop index. -/
structure RunEnv where
  env : String → Option String
  dbOk : Bool
  openaiOk : Bool
  vehicles : List Vehicle
  gen : Nat → Except Err String
  upd : Nat → Except Err Unit

/-- Whether the provider call for loop index i succeeds. -/
def genOk (E : RunEnv) (i : Nat) : Bool :=
  match E.gen i with
  | Except.ok _ => true
  | Except.error _ => false

/-- Whether the store update for loop index i succeeds. -/
def updOk (E : RunEnv) (i : Nat) : Bool :=
  match E.upd i with
  | Except.ok _ => true
  | Except.error _ => false

/-- Whether loop index i runs to the end of its try block without a throw. -/
def recordOk (E : RunEnv) (i : Nat) : Bool :=
  genOk E i && updOk E i

/-- The events of iteration i of the loop (src/VehicleImageGenerator.js lines
171-194): the provider is always called; on success the store update is
called; when that also succeeds and i is not the last index, the pacing delay
runs.  A throw at any point skips the rest of the try block, including the
delay, and is caught by the per-record catch. -/
def recordTrace (E : RunEnv) (i : Nat) : List Event :=
  Event.providerCall i ::
    match E.gen i with
    | Except.error _ => []
    | Except.ok _ =>
      Event.storeUpdateCall i ::
        match E.upd i with
        | Except.error _ => []
        | Except.ok _ => if i < E.vehicles.length - 1 then [Event.delay] else []

/-- The events of the whole per-record loop. -/
def loopTrace (E : RunEnv) : List Event :=
  ((List.range E.vehicles.length).map (fun i => recordTrace E i)).flatten

/-- processAllVehicles (src/VehicleImageGenerator.js lines 145-200) as an
event trace: environment check, then the two connectivity probes, then either
the empty-candidate report or the per-record loop. -/
def processAllVehicles (E : RunEnv) : List Event :=
  match testEnvironmentVariables E.env with
  | (envEvts, false) => envEvts
  | (envEvts, true) =>
    let db := testConnection E.dbOk
    let oa := testOpenAIConnection E.openaiOk
    let pre := envEvts ++ db.1 ++ oa.1
    if !db.2 || !oa.2 then pre
    else if E.vehicles.length = 0 then pre ++ [Event.emptyReport]
    else pre ++ loopTrace E

/-- Recognizer for provider-call events. -/
def isProviderCall : Event → Bool
  | Event.providerCall _ => true
  | _ => false

/-- Recognizer for store-update events. -/
def isStoreUpdateCall : Event → Bool
  | Event.storeUpdateCall _ => true
  | _ => false

/-- Recognizer for pacing-delay events. -/
def isDelay : Event → Bool
  | Event.delay => true
  | _ => false

/-- Number of provider image-generation calls in a trace. -/
def countProviderCalls (t : List Event) : Nat := t.countP isProviderCall

/-- Number of store-update calls in a trace. -/
def countStoreUpdateCalls (t : List Event) : Nat := t.countP isStoreUpdateCall

/-- Number of pacing delays in a trace. -/
def countDelays (t : List Event) : Nat := t.countP isDelay

/-! ## Concrete sample data used by closed statements -/

/-- A vehicle that already has an image. -/
def vSedan : Vehicle :=
  { id := 1, vehicletype := "sedan", vehiclegraphic := some "http://x/1.png", updated_at := "t0" }

/-- Another vehicle that already has an image. -/
def vTruck : Vehicle :=
  { id := 2, vehicletype := "truck", vehiclegraphic := some "http://x/2.png", updated_at := "t0" }

/-- A vehicle with no image yet. -/
def vBike : Vehicle :=
  { id := 3, vehicletype := "bike", vehiclegraphic := none, updated_at := "t0" }

/-- A store in which every row already has an image. -/
def storeFull : Store := [vSedan, vTruck]

/-- A deterministic url generator standing for an always-successful provider. -/
def genUrl (t : String) : String := "http://gen/" ++ t

/-- Provider adapter oracle that always fails with a rate-limit error. -/
def provFail : ImageRequest → Except Err ProviderResponse :=
  fun _ => Except.error Err.rateLimit

/-- Provider adapter oracle whose response carries an empty data array. -/
def provEmptyData : ImageRequest → Except Err ProviderResponse :=
  fun _ => Except.ok { data := [] }

/-- Provider adapter oracle whose response carries one image url. -/
def provOneData : ImageRequest → Except Err ProviderResponse :=
  fun _ => Except.ok { data := [{ url := "http://img/one.png" }] }

/-- A two-record run in which the provider call for the first record fails and
everything else succeeds. -/
def cexRunEnv : RunEnv :=
  { env := fun _ => some "x"
    dbOk := true
    openaiOk := true
    vehicles := [vBike, { id := 4, vehicletype := "van", vehiclegraphic := none, updated_at := "t0" }]
    gen := fun i => if i = 0 then Except.error (Err.network "boom") else Except.ok "http://img/a.png"
    upd := fun _ => Except.ok () }

/-- A two-record run in which every remote call succeeds. -/
def okRunEnv : RunEnv :=
  { env := fun _ => some "x"
    dbOk := true
    openaiOk := true
    vehicles := [vBike, { id := 4, vehicletype := "van", vehiclegraphic := none, updated_at := "t0" }]
    gen := fun _ => Except.ok "http://img/a.png"
    upd := fun _ => Except.ok () }

/-- A run in which the store reachability probe fails. -/
def dbFailRunEnv : RunEnv :=
  { okRunEnv with dbOk := false }

/-- A run whose candidate set is empty. -/
def emptyRunEnv : RunEnv :=
  { okRunEnv with vehicles := [] }

/-! ## Helper lemmas -/

/-- Characterization of JavaScript truthiness of a nullable string. -/
theorem jsTruthyStr_iff (o : Option String) :
    jsTruthyStr o = true ↔ ∃ s, o = some s ∧ s ≠ "" := by
  cases o <;> simp [jsTruthyStr, Bool.eq_false_iff, String.isEmpty_iff]

/-- Unfolding of the testEnvironmentVariables fold: the emitted diagnostics
are one Missing line per falsy variable, in order, and the returned flag is
the conjunction of the truthiness of all the variables. -/
theorem testEnvVars_foldl (env : String → Option String) (vars : List String) :
    ∀ (evts : List Event) (b : Bool),
      vars.foldl
          (fun acc varName =>
            if jsTruthyStr (env varName) then acc
            else (acc.1 ++ [Event.envMissing varName], false))
          (evts, b)
        = (evts ++ (vars.filter (fun k => !jsTruthyStr (env k))).map Event.envMissing,
           b && vars.all (fun k => jsTruthyStr (env k))) := by
  induction vars with
  | nil => intro evts b; simp
  | cons v vs ih =>
    intro evts b
    by_cases h : jsTruthyStr (env v)
    · simp [h, ih evts b]
    · simp [h, ih (evts ++ [Event.envMissing v]) false]

/-! ## Claims -/

/-- Claim C7: the prompt builder is a pure, deterministic function of the
category label alone: it is a fixed string template instantiated at the
label, total on all labels, and reads no state (its Lean embedding is a plain
function of the label). -/
theorem generateImagePrompt_template :
    ∃ pre suf : String, ∀ label : String,
      generateImagePrompt label = pre ++ label ++ suf :=
  ⟨"A photo-realistic, ultra-detailed image of a ",
   " in pristine condition, \n        captured at a 3/4 front angle on a sleek, modern showroom floor with professional lighting. \n        The flawless paint reflects perfectly, showcasing chrome accents and tire details. The \n        background features a soft gray-to-white gradient for depth. High-resolution, showroom-quality, \n        with no people and no text.",
   fun _ => rfl⟩

/-- Claim C3: for every identifier that does not occur in the store and every
url and overwrite flag, updateVehicleImage reports the notFound error and
returns the store unchanged: no record is created or mutated. -/
theorem updateVehicleImage_notFound (now url : String) (store : Store)
    (vehicleId : Nat) (forceUpdate : Bool)
    (h : ∀ v ∈ store, v.id ≠ vehicleId) :
    updateVehicleImage now store vehicleId url forceUpdate
      = (Except.error (UpdateError.notFound vehicleId), store) := by
  have hf : fetchOne store vehicleId = none := by
    refine List.find?_eq_none.2 (fun v hv => ?_)
    simp [h v hv]
  simp [updateVehicleImage, hf]

/-- Witness for C3: id 99 is absent from the two-row sample store. -/
theorem updateVehicleImage_notFound_witness :
    updateVehicleImage "t1" storeFull 99 "http://new.png" false
      = (Except.error (UpdateError.notFound 99), storeFull) :=
  updateVehicleImage_notFound "t1" "http://new.png" storeFull 99 false (by decide)

/-- Claim C6: the environment-variable check succeeds exactly when all three
required values are present and non-empty, and its diagnostics name every
missing key (one Missing line per falsy variable, never stopping at the
first). -/
theorem testEnvironmentVariables_spec (env : String → Option String) :
    ((testEnvironmentVariables env).2 = true ↔
       ∀ k ∈ requiredVars, ∃ s, env k = some s ∧ s ≠ "") ∧
    (testEnvironmentVariables env).1
      = (requiredVars.filter (fun k => !jsTruthyStr (env k))).map Event.envMissing := by
  have h := testEnvVars_foldl env requiredVars [] true
  constructor
  · rw [testEnvironmentVariables, h]
    simp only [Bool.true_and, List.all_eq_true]
    constructor
    · intro hall k hk
      exact (jsTruthyStr_iff (env k)).1 (hall k hk)
    · intro hall k hk
      exact (jsTruthyStr_iff (env k)).2 (hall k hk)
  · rw [testEnvironmentVariables, h]
    simp

/-- Witness for C6: with all variables set the check succeeds; with only the
provider key unset the diagnostic names exactly that key. -/
theorem testEnvironmentVariables_spec_witness :
    (testEnvironmentVariables (fun _ => some "x")).2 = true ∧
    (testEnvironmentVariables
        (fun k => if k = "OPENAI_API_KEY" then none else some "x")).1
      = [Event.envMissing "OPENAI_API_KEY"] :=
  ⟨(testEnvironmentVariables_spec (fun _ => some "x")).1.2
     (fun k _ => ⟨"x", rfl, by decide⟩),
   (testEnvironmentVariables_spec
       (fun k => if k = "OPENAI_API_KEY" then none else some "x")).2.trans
     (by decide)⟩

/-- Finding by id after an update by the same id yields the updated row. -/
theorem fetchOne_updateRow (url now : String) (v : Vehicle) :
    ∀ (store : Store), fetchOne store v.id = some v →
      fetchOne (updateRow v.id url now store) v.id
        = some { v with vehiclegraphic := some url, updated_at := now } := by
  intro store
  induction store with
  | nil => intro h; simp [fetchOne] at h
  | cons w ws ih =>
    intro h
    by_cases hw : w.id = v.id
    · have hfind : fetchOne (w :: ws) v.id = some w := by
        simp [fetchOne, List.find?_cons_of_pos, hw]
      rw [h] at hfind
      obtain rfl : w = v := by injection hfind with hh; exact hh.symm
      simp [fetchOne, updateRow, List.find?_cons_of_pos, hw]
    · have h1 : fetchOne ws v.id = some v := by
        simpa [fetchOne, List.find?_cons_of_neg, hw] using h
      have h2 := ih h1
      simpa [fetchOne, updateRow, List.find?_cons_of_neg, hw] using h2

/-- A row whose id is not the updated one stays in the store unchanged. -/
theorem mem_updateRow_of_ne {w : Vehicle} {store : Store} (hw : w ∈ store)
    (vehicleId : Nat) (url now : String) (hne : w.id ≠ vehicleId) :
    w ∈ updateRow vehicleId url now store := by
  have hcongr :
      (fun v => if v.id == vehicleId then
        { v with vehiclegraphic := some url, updated_at := now } else v) w = w := by
    simp [hne]
  rw [updateRow]
  exact hcongr ▸ List.mem_map_of_mem _ hw

/-- A row whose id is not the target of updateVehicleImage is still in the
resulting store. -/
theorem mem_updateVehicleImage_snd {w : Vehicle} {store : Store} (hw : w ∈ store)
    (now url : String) (vehicleId : Nat) (forceUpdate : Bool) (hne : w.id ≠ vehicleId) :
    w ∈ (updateVehicleImage now store vehicleId url forceUpdate).2 := by
  rw [updateVehicleImage]
  cases hf : fetchOne store vehicleId with
  | none => simpa using hw
  | some current =>
    by_cases hskip : jsTruthyStr current.vehiclegraphic && !forceUpdate
    · simpa [hskip] using hw
    · simpa [hskip] using mem_updateRow_of_ne hw vehicleId url now hne

/-- processRecord written as a plain match on the provider outcome. -/
theorem processRecord_eq (provider : String → Except Err String) (now : String)
    (forceUpdate : Bool) (store : Store) (v : Vehicle) :
    processRecord provider now forceUpdate store v
      = match provider v.vehicletype with
        | Except.error _ => store
        | Except.ok url => (updateVehicleImage now store v.id url forceUpdate).2 := by
  rw [processRecord]
  cases provider v.vehicletype with
  | error e => rfl
  | ok url =>
    cases hu : updateVehicleImage now store v.id url forceUpdate with
    | mk res st => cases res <;> simp [hu]

/-- A row whose id occurs nowhere in the candidate list survives the whole
per-record loop unchanged. -/
theorem mem_foldl_processRecord (provider : String → Except Err String)
    (now : String) (forceUpdate : Bool) :
    ∀ (cand : List Vehicle) (store : Store) (w : Vehicle), w ∈ store →
      w.id ∉ cand.map (fun v => v.id) →
      w ∈ cand.foldl (fun s v => processRecord provider now forceUpdate s v) store := by
  intro cand
  induction cand with
  | nil => intro store w hw _; simpa using hw
  | cons v vs ih =>
    intro store w hw hid
    have hvs : w.id ∉ vs.map (fun v => v.id) := by
      intro hmem; exact hid (by simp [hmem])
    have hv : w.id ≠ v.id := by
      intro hmem; exact hid (by simp [hmem])
    have hstep : w ∈ processRecord provider now forceUpdate store v := by
      rw [processRecord_eq]
      cases provider v.vehicletype with
      | error e => simpa using hw
      | ok url => simpa using mem_updateVehicleImage_snd hw now url v.id forceUpdate hv
    simpa using ih _ w hstep hvs

/-- An incremental run (onlyMissing = true, hence forceUpdate = false) keeps
every row that already has an image in the store unchanged: the candidate set
contains only rows whose vehiclegraphic is null, and with unique ids the loop
never writes to any other row. -/
theorem processVehicles_incremental_preserves
    (provider : String → Except Err String) (now : String) (connOk : Bool)
    (store : Store) (hnodup : (store.map (fun v => v.id)).Nodup)
    (w : Vehicle) (hw : w ∈ store) (u : String) (hu : w.vehiclegraphic = some u) :
    w ∈ processVehicles provider now connOk true store := by
  rw [processVehicles]
  cases connOk with
  | false => simpa using hw
  | true =>
    simp only [Bool.not_true, if_false, if_true]
    by_cases hlen : (getVehiclesWithoutImages store).length = 0
    · simpa [hlen] using hw
    · have hid : w.id ∉ (getVehiclesWithoutImages store).map (fun v => v.id) := by
        intro hmem
        obtain ⟨x, hx, hxid⟩ := List.mem_map.1 hmem
        have hxs : x ∈ store := List.mem_of_mem_filter hx
        have hxnone : x.vehiclegraphic.isNone := (List.mem_filter.1 hx).2
        have : x = w := List.inj_on_of_nodup_map hnodup hxs hw hxid
        rw [this, hu] at hxnone
        simp at hxnone
      simpa [hlen] using
        mem_foldl_processRecord provider now false (getVehiclesWithoutImages store)
          store w hw hid

/-- Claim C1: when the stored image reference of a record is present (a
non-empty string, per the store invariant that a present reference is a valid
url), updateVehicleImage with forceUpdate = false returns false and leaves
the store unchanged; consequently an incremental run never changes any
existing image reference of any record.  When the reference is absent or
forceUpdate is true, the call writes the new url and the fresh timestamp and
returns true. -/
theorem updateVehicleImage_policy (now url s : String) (store : Store) (v : Vehicle)
    (hv : fetchOne store v.id = some v) :
    (v.vehiclegraphic = some s → s ≠ "" →
       updateVehicleImage now store v.id url false = (Except.ok false, store)) ∧
    (∀ forceUpdate : Bool, v.vehiclegraphic = none ∨ forceUpdate = true →
       updateVehicleImage now store v.id url forceUpdate
         = (Except.ok true, updateRow v.id url now store) ∧
       fetchOne (updateRow v.id url now store) v.id
         = some { v with vehiclegraphic := some url, updated_at := now }) ∧
    (∀ (provider : String → Except Err String) (connOk : Bool),
       (store.map (fun x => x.id)).Nodup →
       ∀ w ∈ store, ∀ u : String, w.vehiclegraphic = some u →
         w ∈ processVehicles provider now connOk true store) := by
  refine ⟨?_, ?_, ?_⟩
  · intro hsome hne
    have htruthy : jsTruthyStr v.vehiclegraphic = true :=
      (jsTruthyStr_iff v.vehiclegraphic).2 ⟨s, hsome, hne⟩
    simp [updateVehicleImage, hv, htruthy]
  · intro forceUpdate hcase
    refine ⟨?_, fetchOne_updateRow url now v store hv⟩
    rcases hcase with hnone | hforce
    · simp [updateVehicleImage, hv, jsTruthyStr, hnone]
    · simp [updateVehicleImage, hv, hforce]
  · intro provider connOk hnodup w hw u hu
    exact processVehicles_incremental_preserves provider now connOk store hnodup w hw u hu

/-- Witness for C1: in the sample store, the sedan already has an image, so an
overwrite-disabled call returns false and changes nothing, while a forced
call writes the new url. -/
theorem updateVehicleImage_policy_witness :
    updateVehicleImage "t1" storeFull 1 "http://new.png" false
      = (Except.ok false, storeFull) ∧
    updateVehicleImage "t1" storeFull 1 "http://new.png" true
      = (Except.ok true, updateRow 1 "http://new.png" "t1" storeFull) :=
  ⟨(updateVehicleImage_policy "t1" "http://new.png" "http://x/1.png" storeFull vSedan
      (by decide)).1 rfl (by decide),
   ((updateVehicleImage_policy "t1" "http://new.png" "http://x/1.png" storeFull vSedan
      (by decide)).2.1 true (Or.inr rfl)).1⟩

/-- Membership in an insertion by id. -/
theorem mem_insertById {x v : Vehicle} :
    ∀ {l : Store}, x ∈ insertById v l ↔ x = v ∨ x ∈ l := by
  intro l
  induction l with
  | nil => simp [insertById]
  | cons w ws ih =>
    by_cases h : v.id ≤ w.id
    · simp [insertById, h]
    · simp [insertById, h, ih]
      tauto

/-- The ordered select returns exactly the rows of the store. -/
theorem mem_getAllVehicles {x : Vehicle} :
    ∀ {s : Store}, x ∈ getAllVehicles s ↔ x ∈ s := by
  intro s
  induction s with
  | nil => simp [getAllVehicles]
  | cons w ws ih =>
    rw [getAllVehicles, List.foldr_cons]
    rw [show ws.foldr insertById [] = getAllVehicles ws from rfl] at *
    simp [mem_insertById, ih]

/-- Inserting by id grows the length by one. -/
theorem length_insertById (v : Vehicle) :
    ∀ (l : Store), (insertById v l).length = l.length + 1 := by
  intro l
  induction l with
  | nil => rfl
  | cons w ws ih =>
    by_cases h : v.id ≤ w.id
    · simp [insertById, h]
    · simp [insertById, h, ih]

/-- The ordered select returns as many rows as the store has. -/
theorem length_getAllVehicles :
    ∀ (s : Store), (getAllVehicles s).length = s.length := by
  intro s
  induction s with
  | nil => rfl
  | cons w ws ih =>
    rw [getAllVehicles, List.foldr_cons,
      show ws.foldr insertById [] = getAllVehicles ws from rfl,
      length_insertById, ih, List.length_cons]

/-- A forced update of one row is the one-id case of applyAll, provided every
row carrying that id has the vehicletype the url was generated from. -/
theorem updateRow_eq_applyAll_single (g : String → String) (now : String)
    (v : Vehicle) (s : Store)
    (hty : ∀ w ∈ s, w.id = v.id → w.vehicletype = v.vehicletype) :
    updateRow v.id (g v.vehicletype) now s = applyAll g now [v.id] s := by
  rw [updateRow, applyAll]
  refine List.map_congr_left (fun w hw => ?_)
  by_cases h : w.id = v.id
  · simp [h, hty w hw h]
  · simp [h]

/-- Two successive applyAll passes amount to one pass over the concatenated
id lists. -/
theorem applyAll_applyAll (g : String → String) (now : String)
    (ids1 ids2 : List Nat) (s : Store) :
    applyAll g now ids2 (applyAll g now ids1 s) = applyAll g now (ids1 ++ ids2) s := by
  rw [applyAll, applyAll, applyAll, List.map_map]
  refine List.map_congr_left (fun w _ => ?_)
  by_cases h1 : w.id ∈ ids1 <;> by_cases h2 : w.id ∈ ids2 <;>
    simp [Function.comp, h1, h2]

/-- Every row of the store reappears in applyAll with the same id and
vehicletype. -/
theorem exists_mem_applyAll (g : String → String) (now : String) (ids : List Nat)
    (s : Store) (w : Vehicle) (hw : w ∈ s) :
    ∃ x ∈ applyAll g now ids s, x.id = w.id ∧ x.vehicletype = w.vehicletype := by
  rw [applyAll]
  by_cases h : w.id ∈ ids
  · exact ⟨_, List.mem_map_of_mem _ hw, by simp [h]⟩
  · exact ⟨_, List.mem_map_of_mem _ hw, by simp [h]⟩

/-- Every row of applyAll comes from a row of the store with the same id and
vehicletype. -/
theorem mem_applyAll_dest (g : String → String) (now : String) (ids : List Nat)
    (s : Store) (x : Vehicle) (hx : x ∈ applyAll g now ids s) :
    ∃ w ∈ s, x.id = w.id ∧ x.vehicletype = w.vehicletype := by
  rw [applyAll] at hx
  obtain ⟨w, hw, rfl⟩ := List.mem_map.1 hx
  refine ⟨w, hw, ?_⟩
  by_cases h : w.id ∈ ids <;> simp [h]

/-- The per-record loop of a full-regeneration run with an always-successful
provider overwrites exactly the rows whose ids occur in the candidate list. -/
theorem regen_fold (g : String → String) (now : String) :
    ∀ (cand : List Vehicle) (s : Store),
      (∀ v ∈ cand, (∃ w ∈ s, w.id = v.id) ∧
         ∀ w ∈ s, w.id = v.id → w.vehicletype = v.vehicletype) →
      cand.foldl (fun st v => processRecord (fun t => Except.ok (g t)) now true st v) s
        = applyAll g now (cand.map (fun v => v.id)) s := by
  intro cand
  induction cand with
  | nil =>
    intro s _
    simp [applyAll]
  | cons v vs ih =>
    intro s hhyp
    obtain ⟨⟨w0, hw0, hid0⟩, hty⟩ := hhyp v (by simp)
    have hsome : (s.find? (fun x => x.id == v.id)).isSome :=
      List.find?_isSome.2 ⟨w0, hw0, by simp [hid0]⟩
    obtain ⟨c, hc⟩ := Option.isSome_iff_exists.1 hsome
    have hstep : processRecord (fun t => Except.ok (g t)) now true s v
        = updateRow v.id (g v.vehicletype) now s := by
      rw [processRecord_eq]
      simp [updateVehicleImage, fetchOne, hc]
    have htransfer : ∀ v2 ∈ vs,
        (∃ w ∈ applyAll g now [v.id] s, w.id = v2.id) ∧
        ∀ w ∈ applyAll g now [v.id] s, w.id = v2.id → w.vehicletype = v2.vehicletype := by
      intro v2 hv2
      obtain ⟨⟨w2, hw2, hid2⟩, hty2⟩ := hhyp v2 (by simp [hv2])
      constructor
      · obtain ⟨x, hx, hxid, _⟩ := exists_mem_applyAll g now [v.id] s w2 hw2
        exact ⟨x, hx, hxid.trans hid2⟩
      · intro w hw hid
        obtain ⟨w1, hw1, hid1, hty1⟩ := mem_applyAll_dest g now [v.id] s w hw
        exact hty1.trans (hty2 w1 hw1 (hid1.symm.trans hid))
    rw [List.foldl_cons, hstep, updateRow_eq_applyAll_single g now v s hty,
      ih (applyAll g now [v.id] s) htransfer, applyAll_applyAll]
    simp

/-- When every id of every row occurs in the id list, applyAll overwrites every
row. -/
theorem applyAll_of_forall_mem (g : String → String) (now : String)
    (ids : List Nat) (s : Store) (h : ∀ w ∈ s, w.id ∈ ids) :
    applyAll g now ids s
      = s.map (fun w =>
          { w with vehiclegraphic := some (g w.vehicletype), updated_at := now }) := by
  rw [applyAll]
  exact List.map_congr_left (fun w hw => by simp [h w hw])

/-- Claim C9: with unique record ids and an always-successful provider, the
entry point infers the run mode from the store: when no record lacks an image
it runs full regeneration (forceOverwrite = true), overwriting the
image reference and timestamp of every record; otherwise it runs the incremental fill
(processVehicles with onlyMissing = true), which touches only the records
missing an image and keeps every row that already has one. -/
theorem main_run_mode (g : String → String) (now : String) (store : Store)
    (hnodup : (store.map (fun v => v.id)).Nodup) :
    (getVehiclesWithoutImages store = [] →
       main (fun t => Except.ok (g t)) now true store
         = store.map (fun w =>
             { w with vehiclegraphic := some (g w.vehicletype), updated_at := now })) ∧
    (getVehiclesWithoutImages store ≠ [] →
       main (fun t => Except.ok (g t)) now true store
         = processVehicles (fun t => Except.ok (g t)) now true true store ∧
       ∀ w ∈ store, ∀ u : String, w.vehiclegraphic = some u →
         w ∈ main (fun t => Except.ok (g t)) now true store) := by
  constructor
  · intro hmiss
    have hmain : main (fun t => Except.ok (g t)) now true store
        = processVehicles (fun t => Except.ok (g t)) now true false store := by
      simp [main, hmiss]
    have hform : processVehicles (fun t => Except.ok (g t)) now true false store
        = if (getAllVehicles store).length = 0 then store
          else (getAllVehicles store).foldl
            (fun s v => processRecord (fun t => Except.ok (g t)) now true s v) store := by
      simp [processVehicles]
    rw [hmain, hform]
    by_cases hstore : store = []
    · subst hstore
      simp [getAllVehicles]
    · have hne : ¬ (getAllVehicles store).length = 0 := by
        rw [length_getAllVehicles, List.length_eq_zero]
        exact hstore
      have hhyp : ∀ v ∈ getAllVehicles store,
          (∃ x ∈ store, x.id = v.id) ∧
          ∀ x ∈ store, x.id = v.id → x.vehicletype = v.vehicletype := by
        intro v hv
        have hvs : v ∈ store := mem_getAllVehicles.1 hv
        refine ⟨⟨v, hvs, rfl⟩, fun x hx hid => ?_⟩
        rw [List.inj_on_of_nodup_map hnodup hx hvs hid]
      have hcover : ∀ x ∈ store, x.id ∈ (getAllVehicles store).map (fun v => v.id) :=
        fun x hx => List.mem_map_of_mem _ (mem_getAllVehicles.2 hx)
      rw [if_neg hne, regen_fold g now (getAllVehicles store) store hhyp,
        applyAll_of_forall_mem g now _ store hcover]
  · intro hmiss
    have hlen : (getVehiclesWithoutImages store).length > 0 :=
      List.length_pos.2 hmiss
    have hmain : main (fun t => Except.ok (g t)) now true store
        = processVehicles (fun t => Except.ok (g t)) now true true store := by
      simp [main, hlen]
    refine ⟨hmain, fun w hw u hu => ?_⟩
    rw [hmain]
    exact processVehicles_incremental_preserves (fun t => Except.ok (g t)) now true
      store hnodup w hw u hu

/-- Witness for C9: both rows of the sample store have images, so the entry
point regenerates all of them with the forced overwrite. -/
theorem main_run_mode_witness :
    main (fun t => Except.ok (genUrl t)) "t1" true storeFull
      = [{ id := 1, vehicletype := "sedan", vehiclegraphic := some "http://gen/sedan",
           updated_at := "t1" },
         { id := 2, vehicletype := "truck", vehiclegraphic := some "http://gen/truck",
           updated_at := "t1" }] :=
  ((main_run_mode genUrl "t1" storeFull (by decide)).1 rfl).trans (by decide)

/-- Claim C8: generateVehicleImage issues exactly one provider request, whose
configuration is fixed (size 1024x1024, quality hd, style vivid, count 1),
and a provider error is propagated unchanged to the caller with no retry. -/
theorem generateVehicleImage_request
    (provider : ImageRequest → Except Err ProviderResponse) (vehicletype : String) :
    (generateVehicleImage provider vehicletype).1 = [mkImageRequest vehicletype] ∧
    (mkImageRequest vehicletype).size = "1024x1024" ∧
    (mkImageRequest vehicletype).quality = "hd" ∧
    (mkImageRequest vehicletype).style = "vivid" ∧
    (mkImageRequest vehicletype).n = 1 ∧
    ∀ e : Err, provider (mkImageRequest vehicletype) = Except.error e →
      (generateVehicleImage provider vehicletype).2 = Except.error e := by
  refine ⟨?_, rfl, rfl, rfl, rfl, ?_⟩
  · cases hp : provider (mkImageRequest vehicletype) with
    | error e => simp [generateVehicleImage, hp]
    | ok resp =>
      cases hd : resp.data with
      | nil => simp [generateVehicleImage, hp, hd]
      | cons d rest => simp [generateVehicleImage, hp, hd]
  · intro e he
    simp [generateVehicleImage, he]

/-- Witness for C8: with a provider oracle that always reports a rate limit,
the single request is issued and the same error comes back. -/
theorem generateVehicleImage_request_witness :
    (generateVehicleImage provFail "sedan").1 = [mkImageRequest "sedan"] ∧
    (generateVehicleImage provFail "sedan").2 = Except.error Err.rateLimit :=
  ⟨(generateVehicleImage_request provFail "sedan").1,
   (generateVehicleImage_request provFail "sedan").2.2.2.2.2 Err.rateLimit rfl⟩

/-- Claim C10: generateVehicleImage returns the url of the first element of
the response data array with no emptiness guard: it yields a url exactly when
the data array is non-empty, and on an empty array the element-0 access
raises the TypeError. -/
theorem generateVehicleImage_first_url
    (provider : ImageRequest → Except Err ProviderResponse) (vehicletype : String)
    (resp : ProviderResponse)
    (hr : provider (mkImageRequest vehicletype) = Except.ok resp) :
    (resp.data = [] →
       (generateVehicleImage provider vehicletype).2 = Except.error Err.typeError) ∧
    (∀ d rest, resp.data = d :: rest →
       (generateVehicleImage provider vehicletype).2 = Except.ok d.url) ∧
    ((∃ u, (generateVehicleImage provider vehicletype).2 = Except.ok u) ↔
       resp.data ≠ []) := by
  refine ⟨?_, ?_, ?_⟩
  · intro hd; simp [generateVehicleImage, hr, hd]
  · intro d rest hd; simp [generateVehicleImage, hr, hd]
  · cases hd : resp.data with
    | nil => simp [generateVehicleImage, hr, hd]
    | cons d rest => simp [generateVehicleImage, hr, hd]

/-- Witness for C10: a response with an empty data array produces the
TypeError; a response with one element produces its url. -/
theorem generateVehicleImage_first_url_witness :
    (generateVehicleImage provEmptyData "x").2 = Except.error Err.typeError ∧
    (generateVehicleImage provOneData "x").2 = Except.ok "http://img/one.png" :=
  ⟨(generateVehicleImage_first_url provEmptyData "x" { data := [] } rfl).1 rfl,
   (generateVehicleImage_first_url provOneData "x"
      { data := [{ url := "http://img/one.png" }] } rfl).2.1
     { url := "http://img/one.png" } [] rfl⟩

/-- When all three required environment variables are truthy the environment
check emits no diagnostic and succeeds. -/
theorem testEnv_all_ok (env : String → Option String)
    (h : ∀ k ∈ requiredVars, jsTruthyStr (env k) = true) :
    testEnvironmentVariables env = ([], true) := by
  rw [testEnvironmentVariables, testEnvVars_foldl env requiredVars [] true]
  have h1 : requiredVars.filter (fun k => !jsTruthyStr (env k)) = [] :=
    List.filter_eq_nil_iff.2 (fun k hk => by simp [h k hk])
  have h2 : requiredVars.all (fun k => jsTruthyStr (env k)) = true :=
    List.all_eq_true.2 h
  simp [h1, h2]

/-- Shape of a run that passes the whole preflight: either the empty-set
report or the per-record loop. -/
theorem processAllVehicles_ok (E : RunEnv)
    (henv : ∀ k ∈ requiredVars, jsTruthyStr (E.env k) = true)
    (hdb : E.dbOk = true) (hoa : E.openaiOk = true) :
    processAllVehicles E
      = if E.vehicles.length = 0 then [Event.emptyReport] else loopTrace E := by
  rw [processAllVehicles]
  rw [testEnv_all_ok E.env henv]
  simp [testConnection, testOpenAIConnection, hdb, hoa]

/-- Summing a 0/1 indicator over a list counts the elements satisfying the
predicate. -/
theorem sum_map_ite_one {α : Type} (p : α → Bool) :
    ∀ (l : List α), (l.map (fun a => if p a then 1 else 0)).sum = (l.filter p).length := by
  intro l
  induction l with
  | nil => rfl
  | cons x xs ih =>
    by_cases h : p x <;> simp [h, ih, Nat.add_comm]

/-- Summing the constant 1 over a list yields its length. -/
theorem sum_map_one {α : Type} :
    ∀ (l : List α), (l.map (fun _ => (1 : Nat))).sum = l.length := by
  intro l
  induction l with
  | nil => rfl
  | cons x xs ih => simp [ih, Nat.add_comm]

/-- Counting events across the loop trace record by record. -/
theorem countP_loopTrace (E : RunEnv) (p : Event → Bool) :
    (loopTrace E).countP p
      = ((List.range E.vehicles.length).map
          (fun i => (recordTrace E i).countP p)).sum := by
  rw [loopTrace, List.countP_flatten, List.map_map]
  rfl

/-- Each loop iteration makes exactly one provider call. -/
theorem recordTrace_countP_provider (E : RunEnv) (i : Nat) :
    (recordTrace E i).countP isProviderCall = 1 := by
  rw [recordTrace]
  cases hg : E.gen i with
  | error e => simp [isProviderCall]
  | ok u =>
    cases hu : E.upd i with
    | error e2 => simp [isProviderCall]
    | ok u2 =>
      by_cases hlt : i < E.vehicles.length - 1 <;>
        simp [hlt, isProviderCall]

/-- Each loop iteration makes one store-update call exactly when its provider
call succeeded. -/
theorem recordTrace_countP_store (E : RunEnv) (i : Nat) :
    (recordTrace E i).countP isStoreUpdateCall = if genOk E i then 1 else 0 := by
  rw [recordTrace]
  cases hg : E.gen i with
  | error e => simp [genOk, hg, isStoreUpdateCall]
  | ok u =>
    cases hu : E.upd i with
    | error e2 => simp [genOk, hg, isStoreUpdateCall]
    | ok u2 =>
      by_cases hlt : i < E.vehicles.length - 1 <;>
        simp [hlt, genOk, hg, isStoreUpdateCall, isDelay]

/-- Each loop iteration runs the pacing delay exactly when it finished its
try block without a throw and is not the last iteration. -/
theorem recordTrace_countP_delay (E : RunEnv) (i : Nat) :
    (recordTrace E i).countP isDelay
      = if recordOk E i && decide (i < E.vehicles.length - 1) then 1 else 0 := by
  rw [recordTrace]
  cases hg : E.gen i with
  | error e => simp [recordOk, genOk, hg, isDelay]
  | ok u =>
    cases hu : E.upd i with
    | error e2 => simp [recordOk, genOk, updOk, hg, hu, isDelay]
    | ok u2 =>
      by_cases hlt : i < E.vehicles.length - 1 <;>
        simp [hlt, recordOk, genOk, updOk, hg, hu, isDelay]

/-- Restricting an indicator of both p and not-last to the range of indices
counts p over the non-final indices. -/
theorem filter_range_pred (N : Nat) (p : Nat → Bool) :
    ((List.range N).filter (fun i => p i && decide (i < N - 1))).length
      = ((List.range (N - 1)).filter p).length := by
  cases N with
  | zero => simp
  | succ m =>
    rw [Nat.succ_sub_one]
    rw [List.range_succ, List.filter_append]
    have h1 : (List.range m).filter (fun i => p i && decide (i < m))
        = (List.range m).filter p :=
      List.filter_congr (fun i hi => by simp [List.mem_range.1 hi])
    have h2 : [m].filter (fun i => p i && decide (i < m)) = [] := by simp
    rw [h1, h2]
    simp

/-- Claim C2, corrected: in a preflight-passing run over N candidate records
there are exactly N provider calls and at most N store-update calls whatever
the per-record outcomes are (so an error at record k never reduces the
attempts made for the later records), and the number of pacing delays equals
the number of non-final records whose iteration finished without an error; in
particular a run with no per-record error performs exactly N - 1 delays.  The
claimed unconditional count of exactly N - 1 delays fails: the delay sits
inside the per-record try block, so an error at a non-final record also skips
the delay of that record. -/
theorem processAllVehicles_counts (E : RunEnv)
    (henv : ∀ k ∈ requiredVars, jsTruthyStr (E.env k) = true)
    (hdb : E.dbOk = true) (hoa : E.openaiOk = true) :
    countProviderCalls (processAllVehicles E) = E.vehicles.length ∧
    countStoreUpdateCalls (processAllVehicles E) ≤ E.vehicles.length ∧
    countDelays (processAllVehicles E)
      = ((List.range (E.vehicles.length - 1)).filter (fun i => recordOk E i)).length ∧
    ((∀ i, i < E.vehicles.length → recordOk E i = true) →
       countDelays (processAllVehicles E) = E.vehicles.length - 1) := by
  have htrace := processAllVehicles_ok E henv hdb hoa
  by_cases hN : E.vehicles.length = 0
  · rw [htrace, if_pos hN, hN]
    simp [countProviderCalls, countStoreUpdateCalls, countDelays,
      isProviderCall, isStoreUpdateCall, isDelay]
  · rw [htrace, if_neg hN]
    have hprov : countProviderCalls (loopTrace E) = E.vehicles.length := by
      rw [countProviderCalls, countP_loopTrace]
      rw [List.map_congr_left (fun i _ => recordTrace_countP_provider E i)]
      rw [sum_map_one, List.length_range]
    have hstore : countStoreUpdateCalls (loopTrace E) ≤ E.vehicles.length := by
      rw [countStoreUpdateCalls, countP_loopTrace]
      rw [List.map_congr_left (fun i _ => recordTrace_countP_store E i)]
      rw [sum_map_ite_one]
      calc ((List.range E.vehicles.length).filter (fun i => genOk E i)).length
          ≤ (List.range E.vehicles.length).length := List.length_filter_le _ _
        _ = E.vehicles.length := List.length_range _
    have hdelay : countDelays (loopTrace E)
        = ((List.range (E.vehicles.length - 1)).filter (fun i => recordOk E i)).length := by
      rw [countDelays, countP_loopTrace]
      rw [List.map_congr_left (fun i _ => recordTrace_countP_delay E i)]
      rw [sum_map_ite_one, filter_range_pred]
    refine ⟨hprov, hstore, hdelay, fun hall => ?_⟩
    rw [hdelay]
    have hfull : (List.range (E.vehicles.length - 1)).filter (fun i => recordOk E i)
        = List.range (E.vehicles.length - 1) :=
      List.filter_eq_self.2 (fun i hi =>
        hall i (Nat.lt_of_lt_of_le (List.mem_range.1 hi) (Nat.sub_le _ _)))
    rw [hfull, List.length_range]

/-- Witness for the corrected C2: in the two-record all-success run there are
two provider calls and one pacing delay. -/
theorem processAllVehicles_counts_witness :
    countProviderCalls (processAllVehicles okRunEnv) = 2 ∧
    countDelays (processAllVehicles okRunEnv) = 1 :=
  ⟨(processAllVehicles_counts okRunEnv (by decide) rfl rfl).1.trans rfl,
   ((processAllVehicles_counts okRunEnv (by decide) rfl rfl).2.2.2 (by decide)).trans rfl⟩

/-- Counterexample to C2 as stated: in the two-record run whose first
provider call fails, the loop performs zero pacing delays, not
N - 1 = 1, because the delay of the failing record is skipped along with the rest
of its try block. -/
theorem processAllVehicles_delay_counterexample :
    countDelays (processAllVehicles cexRunEnv) ≠ cexRunEnv.vehicles.length - 1 := by
  decide

/-- Claim C4: when the preflight environment check passes but the store or
the provider reachability check fails, the run halts before any record
processing: the failing check is named in the diagnostics, and no provider
image-generation call and no store update happens in that run. -/
theorem connectivity_failure_halts (E : RunEnv)
    (henv : ∀ k ∈ requiredVars, jsTruthyStr (E.env k) = true)
    (hfail : E.dbOk = false ∨ E.openaiOk = false) :
    (E.dbOk = false → Event.dbFail ∈ processAllVehicles E) ∧
    (E.openaiOk = false → Event.openaiFail ∈ processAllVehicles E) ∧
    (∀ i, Event.providerCall i ∉ processAllVehicles E) ∧
    (∀ i, Event.storeUpdateCall i ∉ processAllVehicles E) := by
  have hbase : processAllVehicles E
      = (if E.dbOk then [] else [Event.dbFail])
        ++ (if E.openaiOk then [] else [Event.openaiFail]) := by
    rw [processAllVehicles, testEnv_all_ok E.env henv]
    rcases hfail with h | h <;>
      cases hdb : E.dbOk <;> cases hoa : E.openaiOk <;>
        simp_all [testConnection, testOpenAIConnection]
  cases hdb : E.dbOk <;> cases hoa : E.openaiOk <;>
    simp_all [hbase]

/-- Witness for C4: with the store probe failing, the diagnostic names the
store check and no provider call is in the trace. -/
theorem connectivity_failure_halts_witness :
    Event.dbFail ∈ processAllVehicles dbFailRunEnv ∧
    Event.providerCall 0 ∉ processAllVehicles dbFailRunEnv :=
  ⟨(connectivity_failure_halts dbFailRunEnv (by decide) (Or.inl rfl)).1 rfl,
   (connectivity_failure_halts dbFailRunEnv (by decide) (Or.inl rfl)).2.2.1 0⟩

/-- Claim C5: a preflight-passing run whose candidate set is empty reports
this and stops: its whole trace is the empty-set report, with no provider
call and no store update. -/
theorem empty_candidate_set (E : RunEnv)
    (henv : ∀ k ∈ requiredVars, jsTruthyStr (E.env k) = true)
    (hdb : E.dbOk = true) (hoa : E.openaiOk = true)
    (hempty : E.vehicles = []) :
    processAllVehicles E = [Event.emptyReport] ∧
    (∀ i, Event.providerCall i ∉ processAllVehicles E) ∧
    (∀ i, Event.storeUpdateCall i ∉ processAllVehicles E) := by
  have h := processAllVehicles_ok E henv hdb hoa
  rw [hempty] at h
  simp only [List.length_nil, if_pos rfl] at h
  refine ⟨h, fun i => ?_, fun i => ?_⟩ <;> simp [h]

/-- Witness for C5: the empty-candidate run produces exactly the report. -/
theorem empty_candidate_set_witness :
    processAllVehicles emptyRunEnv = [Event.emptyReport] ∧
    Event.providerCall 0 ∉ processAllVehicles emptyRunEnv :=
  ⟨(empty_candidate_set emptyRunEnv (by decide) rfl rfl rfl).1,
   (empty_candidate_set emptyRunEnv (by decide) rfl rfl rfl).2.1 0⟩

end VehicleImageGenerator
